import Mathlib

/-!
Verification of the CONVERSE-AI conversation client.

This file is a shallow embedding of the conversation store and the stream
reconciliation logic of `src/App.tsx`, together with the title post-processing
of `src/services/geminiService.ts`.  Each TypeScript record type becomes a
Lean structure (optional fields become `Option`), each React state update
becomes a pure function on the conversation list (or on the whole app state
when it also touches the active-conversation pointer), and a JavaScript
callback that can throw is modelled by an `Option`-valued function.
-/

/-! ## Data model (src/types.ts) -/

-- `role: 'user' | 'model'`
inductive Role where
  | user
  | model
deriving Repr, DecidableEq

/-- The `Message` interface of src/types.ts.  Optional TypeScript fields are
`Option`s defaulting to `none` (absent). -/
structure Message where
  id : String
  role : Role
  content : String
  timestamp : Nat
  imageUrl : Option String := none
  videoUrl : Option String := none
  isError : Option Bool := none
  isMindMap : Option Bool := none
deriving Repr, DecidableEq

/-- JavaScript truthiness of the optional `isError` field (`undefined` is
falsy), as used by the filters `m => !m.isError`. -/
def Message.isErrFlag (m : Message) : Bool := m.isError.getD false

/-- The `Conversation` interface of src/types.ts. -/
structure Conversation where
  id : String
  title : String
  messages : List Message
  isPinned : Option Bool := none
deriving Repr, DecidableEq

/-- JavaScript truthiness of the optional `isPinned` field, as read by
`!c.isPinned` in `handleTogglePin`. -/
def Conversation.pinned (c : Conversation) : Bool := c.isPinned.getD false

/-- A `Partial<Message>` as used by `updateLastMessage`: `none` means the key
is absent from the partial object.  Only the fields that some call site of
`updateLastMessage` actually writes are represented (`id`, `role` and
`timestamp` are never part of an update in App.tsx). -/
structure MessageUpdate where
  content : Option String := none
  imageUrl : Option String := none
  videoUrl : Option String := none
  isError : Option Bool := none
  isMindMap : Option Bool := none
deriving Repr, DecidableEq

/-- The object spread `{ ...m, ...update }` inside `updateLastMessage`:
a key present in `update` overrides the corresponding key of `m`. -/
def Message.applyUpdate (m : Message) (u : MessageUpdate) : Message where
  id := m.id
  role := m.role
  content := match u.content with | some c => c | none => m.content
  timestamp := m.timestamp
  imageUrl := match u.imageUrl with | some v => some v | none => m.imageUrl
  videoUrl := match u.videoUrl with | some v => some v | none => m.videoUrl
  isError := match u.isError with | some b => some b | none => m.isError
  isMindMap := match u.isMindMap with | some b => some b | none => m.isMindMap

/-- The two pieces of React state of `App` that the claims are about:
`conversations` and `activeConversationId` (App.tsx lines 24-25). -/
structure AppState where
  conversations : List Conversation
  activeConversationId : Option String
deriving Repr, DecidableEq

/-! ## Conversation store operations (src/App.tsx) -/

/-- `updateLastMessage` (App.tsx lines 266-280): inside the conversation whose
id is `convId`, replace every message whose id is `messageId` by its update;
everything else is returned unchanged. -/
def updateLastMessage (convId messageId : String) (u : MessageUpdate)
    (cs : List Conversation) : List Conversation :=
  cs.map fun c =>
    if c.id = convId then
      { c with messages := c.messages.map fun m =>
          if m.id = messageId then m.applyUpdate u else m }
    else c

/-- The recurring update `prev.map(c => c.id === convId ? { ...c, messages:
[...c.messages, msg] } : c)` that appends a message to one conversation
(App.tsx lines 298-302, 334-340, and the analogous lines of every other
flow). -/
def appendMessageToConv (convId : String) (msg : Message)
    (cs : List Conversation) : List Conversation :=
  cs.map fun c =>
    if c.id = convId then { c with messages := c.messages ++ [msg] } else c

/-- The title patch fired when a background `generateConversationTitle` call
resolves: `prev.map(c => (c.id === convId ? { ...c, title } : c))`
(App.tsx lines 319-325 and the analogous lines of the other flows). -/
def setConversationTitle (convId title : String)
    (cs : List Conversation) : List Conversation :=
  cs.map fun c => if c.id = convId then { c with title := title } else c

/-- `handleTogglePin` (App.tsx lines 258-264): `{ ...c, isPinned: !c.isPinned }`
on the matching conversation.  JavaScript `!` on the optional field negates its
truthiness and always produces a genuine boolean. -/
def handleTogglePin (id : String) (cs : List Conversation) : List Conversation :=
  cs.map fun c =>
    if c.id = id then { c with isPinned := some (!(c.isPinned.getD false)) } else c

/-- `handleDeleteConversation` (App.tsx lines 249-256), the confirmed branch:
filter the conversation out of the list and clear the active pointer when it
pointed at the deleted id. -/
def handleDeleteConversation (id : String) (s : AppState) : AppState where
  conversations := s.conversations.filter fun c => c.id != id
  activeConversationId :=
    if s.activeConversationId = some id then none else s.activeConversationId

/-! ## The streamed fragment-apply step

All five streamed flows (`handleSend` lines 349-362, `handleCodeQuery` lines
556-569, `handleGenerateScript` lines 641-654, `handleGenerateMindMap` lines
724-737, and the image-attached variant of `handleSend`) run the identical
loop body: look at the last message of the target conversation and, exactly
when its id equals the captured placeholder id, append the chunk to its
content.  The callback dereferences `lastMsg.id`, so on an empty message list
it would throw; a throwing callback is modelled by `none`. -/

/-- An `Array.prototype.map` whose callback may throw: the first exception
aborts the whole map (and hence the whole React state update). -/
def mapOrThrow (f : Conversation → Option Conversation) :
    List Conversation → Option (List Conversation)
  | [] => some []
  | c :: cs =>
    match f c with
    | none => none
    | some c2 =>
      match mapOrThrow f cs with
      | none => none
      | some cs2 => some (c2 :: cs2)

/-- The body of the fragment loop restricted to one conversation's message
list: `const lastMsg = c.messages[c.messages.length - 1]; if (lastMsg.id ===
modelMessage.id) lastMsg.content += chunk`. -/
def applyChunkToMessages (messageId chunk : String)
    (ms : List Message) : Option (List Message) :=
  match ms.getLast? with
  | none => none
  | some lastMsg =>
    if lastMsg.id = messageId then
      some (ms.dropLast ++ [{ lastMsg with content := lastMsg.content ++ chunk }])
    else
      some ms

/-- One iteration of the fragment loop over the whole conversation list. -/
def applyStreamChunk (convId messageId chunk : String)
    (cs : List Conversation) : Option (List Conversation) :=
  mapOrThrow
    (fun c =>
      if c.id = convId then
        (applyChunkToMessages messageId chunk c.messages).map
          fun ms => { c with messages := ms }
      else some c)
    cs

/-- The whole `for await (const chunk of stream)` loop: the arriving fragments
applied in order. -/
def applyStreamChunks (convId messageId : String) (chunks : List String)
    (cs : List Conversation) : Option (List Conversation) :=
  match chunks with
  | [] => some cs
  | f :: fs =>
    match applyStreamChunk convId messageId f cs with
    | none => none
    | some cs2 => applyStreamChunks convId messageId fs cs2

/-- Concatenation of a fragment sequence in arrival order. -/
def concatFragments : List String → String
  | [] => ""
  | f :: fs => f ++ concatFragments fs

/-! ## Title post-processing (src/services/geminiService.ts lines 193-208)

The network call itself is external; its response text is the argument.
`generateConversationTitle` trims the provider text, strips every double
quote, and truncates anything longer than 30 characters to its first 27
characters plus an ellipsis. -/

def generateConversationTitle (responseText : String) : String :=
  let title := (responseText.trim).replace "\"" ""
  if title.length > 30 then (title.take 27) ++ "..." else title

/-! ## Shared helper lemmas -/

theorem map_eq_self_of_skip {α : Type} (f : α → α) (l : List α)
    (h : ∀ a ∈ l, f a = a) : l.map f = l := by
  induction l with
  | nil => rfl
  | cons a l ih =>
    simp only [List.map_cons]
    rw [h a (List.mem_cons_self a l), ih fun x hx => h x (List.mem_cons_of_mem a hx)]

theorem mapOrThrow_skip (f : Conversation → Option Conversation)
    (l : List Conversation) (h : ∀ c ∈ l, f c = some c) :
    mapOrThrow f l = some l := by
  induction l with
  | nil => rfl
  | cons c cs ih =>
    rw [mapOrThrow, h c (List.mem_cons_self c cs),
      ih fun x hx => h x (List.mem_cons_of_mem c hx)]

theorem mapOrThrow_middle (f : Conversation → Option Conversation)
    (cs1 cs2 : List Conversation) (c c2 : Conversation)
    (h1 : ∀ x ∈ cs1, f x = some x) (h2 : ∀ x ∈ cs2, f x = some x)
    (hc : f c = some c2) :
    mapOrThrow f (cs1 ++ c :: cs2) = some (cs1 ++ c2 :: cs2) := by
  induction cs1 with
  | nil => simp only [List.nil_append, mapOrThrow, hc, mapOrThrow_skip f cs2 h2]
  | cons a l ih =>
    rw [List.cons_append, mapOrThrow, h1 a (List.mem_cons_self a l),
      ih fun x hx => h1 x (List.mem_cons_of_mem a hx)]
    rfl

theorem mapOrThrow_some (f : Conversation → Option Conversation) :
    ∀ (l l2 : List Conversation), mapOrThrow f l = some l2 →
      l2.length = l.length ∧
      ∀ (i : Nat) (hi : i < l.length) (hi2 : i < l2.length), f l[i] = some l2[i] := by
  intro l
  induction l with
  | nil =>
    intro l2 h
    simp only [mapOrThrow, Option.some.injEq] at h
    subst h
    exact ⟨rfl, fun i hi _ => absurd hi (Nat.not_lt_zero i)⟩
  | cons c cs ih =>
    intro l2 h
    rw [mapOrThrow] at h
    cases hc : f c with
    | none => rw [hc] at h; exact absurd h (by simp)
    | some c2 =>
      rw [hc] at h
      cases hcs : mapOrThrow f cs with
      | none => rw [hcs] at h; exact absurd h (by simp)
      | some cs2 =>
        rw [hcs] at h
        simp only [Option.some.injEq] at h
        subst h
        obtain ⟨hlen, hpt⟩ := ih cs2 hcs
        refine ⟨by simp [hlen], ?_⟩
        intro i hi hi2
        match i with
        | 0 => simpa using hc
        | i + 1 =>
          simp only [List.getElem_cons_succ]
          exact hpt i (Nat.lt_of_succ_lt_succ hi) (Nat.lt_of_succ_lt_succ hi2)

theorem updateLastMessage_middle (convId messageId : String) (u : MessageUpdate)
    (cs1 cs2 : List Conversation) (c : Conversation)
    (hothers : ∀ x ∈ cs1 ++ cs2, x.id ≠ convId) (hcid : c.id = convId) :
    updateLastMessage convId messageId u (cs1 ++ c :: cs2)
      = cs1 ++ { c with messages := c.messages.map fun m =>
          if m.id = messageId then m.applyUpdate u else m } :: cs2 := by
  unfold updateLastMessage
  rw [List.map_append, List.map_cons, if_pos hcid,
    map_eq_self_of_skip _ cs1
      (fun x hx => if_neg (hothers x (List.mem_append_left cs2 hx))),
    map_eq_self_of_skip _ cs2
      (fun x hx => if_neg (hothers x (List.mem_append_right cs1 hx)))]

theorem appendMessageToConv_middle (convId : String) (msg : Message)
    (cs1 cs2 : List Conversation) (c : Conversation)
    (hothers : ∀ x ∈ cs1 ++ cs2, x.id ≠ convId) (hcid : c.id = convId) :
    appendMessageToConv convId msg (cs1 ++ c :: cs2)
      = cs1 ++ { c with messages := c.messages ++ [msg] } :: cs2 := by
  unfold appendMessageToConv
  rw [List.map_append, List.map_cons, if_pos hcid,
    map_eq_self_of_skip _ cs1
      (fun x hx => if_neg (hothers x (List.mem_append_left cs2 hx))),
    map_eq_self_of_skip _ cs2
      (fun x hx => if_neg (hothers x (List.mem_append_right cs1 hx)))]

/-! ## Claim C10 -/

/-- Claim C10: `generateConversationTitle` returns the provider text trimmed
and with double quotes removed, truncated to its first 27 characters plus
"..." whenever that cleaned text is longer than 30 characters; consequently
every returned title has length at most 30. -/
theorem generateConversationTitle_spec (responseText : String) :
    (generateConversationTitle responseText).length ≤ 30
    ∧ ((responseText.trim.replace "\"" "").length ≤ 30 →
        generateConversationTitle responseText = responseText.trim.replace "\"" "")
    ∧ (30 < (responseText.trim.replace "\"" "").length →
        generateConversationTitle responseText
          = (responseText.trim.replace "\"" "").take 27 ++ "...") := by
  unfold generateConversationTitle
  by_cases h : (responseText.trim.replace "\"" "").length > 30
  · rw [if_pos h]
    refine ⟨?_, fun hle => absurd h (Nat.not_lt.mpr hle), fun _ => rfl⟩
    rw [String.length_append]
    have htake : ((responseText.trim.replace "\"" "").take 27).length ≤ 27 := by
      rw [← String.length_data, String.data_take, List.length_take]
      exact Nat.min_le_left 27 _
    have hdots : ("..." : String).length = 3 := rfl
    omega
  · rw [if_neg h]
    exact ⟨Nat.not_lt.mp h, fun _ => rfl, fun hgt => absurd hgt h⟩

/-! ## Claim C8 -/

/-- Claim C8: toggling the pin of the same id twice restores every
conversation's pinned state, and every conversation whose id differs from the
toggled one is left literally unchanged. -/
theorem handleTogglePin_twice (id : String) (cs : List Conversation)
    (hpresent : ∃ c ∈ cs, c.id = id) :
    (handleTogglePin id (handleTogglePin id cs)).length = cs.length
    ∧ ∀ (i : Nat) (hi : i < cs.length)
        (hi2 : i < (handleTogglePin id (handleTogglePin id cs)).length),
        (handleTogglePin id (handleTogglePin id cs))[i].pinned = cs[i].pinned
        ∧ (cs[i].id ≠ id → (handleTogglePin id (handleTogglePin id cs))[i] = cs[i]) := by
  clear hpresent
  unfold handleTogglePin
  refine ⟨by simp, ?_⟩
  intro i hi hi2
  rw [List.getElem_map, List.getElem_map]
  by_cases h : cs[i].id = id
  · rw [if_pos h, if_pos h]
    exact ⟨by simp [Conversation.pinned], fun hne => absurd h hne⟩
  · rw [if_neg h, if_neg h]
    exact ⟨rfl, fun _ => rfl⟩

/-- Claim C8 witness. -/
theorem handleTogglePin_twice_witness :
    (handleTogglePin "c1" (handleTogglePin "c1"
        [({ id := "c1", title := "New Chat", messages := [] } : Conversation)])).length = 1 :=
  (handleTogglePin_twice "c1"
      [({ id := "c1", title := "New Chat", messages := [] } : Conversation)]
      ⟨_, List.mem_singleton.mpr rfl, rfl⟩).1

/-! ## Claim C5 -/

/-- Claim C5: deleting a conversation id that is present removes exactly the
conversations carrying that id, clears the active pointer when it pointed at
the deleted id, and leaves the active pointer unchanged otherwise. -/
theorem handleDeleteConversation_spec (id : String) (s : AppState)
    (hpresent : ∃ c ∈ s.conversations, c.id = id) :
    (∀ c : Conversation, c ∈ (handleDeleteConversation id s).conversations
        ↔ (c ∈ s.conversations ∧ c.id ≠ id))
    ∧ (s.activeConversationId = some id →
        (handleDeleteConversation id s).activeConversationId = none)
    ∧ (s.activeConversationId ≠ some id →
        (handleDeleteConversation id s).activeConversationId
          = s.activeConversationId) := by
  clear hpresent
  refine ⟨?_, ?_, ?_⟩
  · intro c
    simp only [handleDeleteConversation, List.mem_filter, bne_iff_ne]
  · intro h
    simp only [handleDeleteConversation, if_pos h]
  · intro h
    simp only [handleDeleteConversation, if_neg h]

/-- Claim C5 witness: delete the active conversation out of a two-element
store. -/
theorem handleDeleteConversation_spec_witness :
    (handleDeleteConversation "c1"
        ⟨[({ id := "c1", title := "A", messages := [] } : Conversation),
          ({ id := "c2", title := "B", messages := [] } : Conversation)],
         some "c1"⟩).activeConversationId = none :=
  (handleDeleteConversation_spec "c1"
      ⟨[({ id := "c1", title := "A", messages := [] } : Conversation),
        ({ id := "c2", title := "B", messages := [] } : Conversation)],
       some "c1"⟩
      ⟨_, List.mem_cons_self _ _, rfl⟩).2.1 rfl

/-! ## Claim C4 -/

/-- Claim C4: every store operation addressed to a conversation id that is not
in the store is a silent no-op: the message update, the title patch fired by a
late title-generation result, the pin toggle, and the fragment-apply step all
return the store unchanged (and the fragment-apply step in particular does not
throw).  The final conjunct instantiates this for the title patch of a
conversation that was just deleted. -/
theorem missing_conversation_noop (convId messageId title chunk : String)
    (u : MessageUpdate) (cs : List Conversation)
    (habsent : ∀ c ∈ cs, c.id ≠ convId) :
    updateLastMessage convId messageId u cs = cs
    ∧ setConversationTitle convId title cs = cs
    ∧ handleTogglePin convId cs = cs
    ∧ applyStreamChunk convId messageId chunk cs = some cs
    ∧ (∀ s : AppState,
        setConversationTitle convId title
            (handleDeleteConversation convId s).conversations
          = (handleDeleteConversation convId s).conversations) := by
  refine ⟨?_, ?_, ?_, ?_, ?_⟩
  · exact map_eq_self_of_skip _ cs fun c hc => if_neg (habsent c hc)
  · exact map_eq_self_of_skip _ cs fun c hc => if_neg (habsent c hc)
  · exact map_eq_self_of_skip _ cs fun c hc => if_neg (habsent c hc)
  · exact mapOrThrow_skip _ cs fun c hc => by rw [if_neg (habsent c hc)]
  · intro s
    refine map_eq_self_of_skip _ _ fun c hc => if_neg ?_
    have hmem := (List.mem_filter.mp hc).2
    exact bne_iff_ne.mp hmem

/-- Claim C10 witness. -/
theorem generateConversationTitle_spec_witness :
    (generateConversationTitle "  \"A Short Title\"  ").length ≤ 30 :=
  (generateConversationTitle_spec "  \"A Short Title\"  ").1

/-- Claim C4 witness: operations addressed to the absent id "zz". -/
theorem missing_conversation_noop_witness :
    updateLastMessage "zz" "m1" {} [({ id := "c1", title := "A", messages := [] } : Conversation)]
      = [({ id := "c1", title := "A", messages := [] } : Conversation)] :=
  (missing_conversation_noop "zz" "m1" "T" "frag" {}
      [({ id := "c1", title := "A", messages := [] } : Conversation)]
      (by decide)).1

/-! ## The gateway calls of the generation flows (for claim C7)

The per-mode call-site descriptors: which gateway operation each flow invokes
and exactly which arguments App.tsx passes to it. -/

/-- The seven gateway operations of src/services/geminiService.ts, as invoked
from App.tsx, together with the arguments each call site passes. -/
inductive GatewayCall where
  | chat (history : List Message) (newMessage : String)
  | chatWithImage (history : List Message)
  | code (history : List Message) (codeQuery : String)
  | script (history : List Message) (prompt : String)
  | mindMap (prompt : String)
  | image (prompt : String)
  | video (prompt : String)
deriving Repr, DecidableEq

/-- The conversation history a gateway call carries, if it carries one at all:
the mind-map, image and video call sites pass only the new prompt. -/
def GatewayCall.sentHistory : GatewayCall → Option (List Message)
  | .chat history _ => some history
  | .chatWithImage history => some history
  | .code history _ => some history
  | .script history _ => some history
  | .mindMap _ => none
  | .image _ => none
  | .video _ => none

/-- The call `handleSend` builds (App.tsx lines 342-347): the history is
`[...currentHistory, userMessage].filter(m => !m.isError)`, and the plain-chat
branch additionally drops the user message itself from the history because it
is passed separately as the new message. -/
def handleSendGatewayCall (currentHistory : List Message) (userMessage : Message)
    (messageContent : String) (hasImage : Bool) : GatewayCall :=
  let historyForAPI := (currentHistory ++ [userMessage]).filter fun m => !m.isErrFlag
  if hasImage then .chatWithImage historyForAPI
  else .chat (historyForAPI.filter fun m => m != userMessage) messageContent

/-- The call `handleCodeQuery` builds (App.tsx lines 553-554). -/
def handleCodeQueryGatewayCall (currentHistory : List Message)
    (codeQuery : String) : GatewayCall :=
  .code (currentHistory.filter fun m => !m.isErrFlag) codeQuery

/-- The call `handleGenerateScript` builds (App.tsx lines 638-639). -/
def handleGenerateScriptGatewayCall (currentHistory : List Message)
    (prompt : String) : GatewayCall :=
  .script (currentHistory.filter fun m => !m.isErrFlag) prompt

/-- The call `handleGenerateMindMap` builds (App.tsx line 722): prompt only. -/
def handleGenerateMindMapGatewayCall (prompt : String) : GatewayCall :=
  .mindMap prompt

/-- The call `handleGenerateImage` builds (App.tsx line 421): prompt only. -/
def handleGenerateImageGatewayCall (prompt : String) : GatewayCall :=
  .image prompt

/-- The call `handleGenerateVideo` builds (App.tsx line 481): prompt only. -/
def handleGenerateVideoGatewayCall (prompt : String) : GatewayCall :=
  .video prompt

/-! ## Claim C7 -/

/-- Claim C7: the chat, code and script flows send the gateway a history from
which every error-flagged message has been filtered out, and the mind-map,
image and video call sites send no conversation history at all. -/
theorem gateway_history_spec (currentHistory : List Message) (userMessage : Message)
    (messageContent codeQuery scriptPrompt mapPrompt imgPrompt vidPrompt : String)
    (hasImage : Bool) :
    (∀ l, (handleSendGatewayCall currentHistory userMessage messageContent
        hasImage).sentHistory = some l → ∀ m ∈ l, m.isErrFlag = false)
    ∧ (∀ l, (handleCodeQueryGatewayCall currentHistory codeQuery).sentHistory
        = some l → ∀ m ∈ l, m.isErrFlag = false)
    ∧ (∀ l, (handleGenerateScriptGatewayCall currentHistory
        scriptPrompt).sentHistory = some l → ∀ m ∈ l, m.isErrFlag = false)
    ∧ (handleGenerateMindMapGatewayCall mapPrompt).sentHistory = none
    ∧ (handleGenerateImageGatewayCall imgPrompt).sentHistory = none
    ∧ (handleGenerateVideoGatewayCall vidPrompt).sentHistory = none := by
  refine ⟨?_, ?_, ?_, rfl, rfl, rfl⟩
  · intro l hl m hm
    unfold handleSendGatewayCall at hl
    by_cases h : hasImage
    · rw [if_pos h] at hl
      simp only [GatewayCall.sentHistory, Option.some.injEq] at hl
      subst hl
      have := (List.mem_filter.mp hm).2
      simpa using this
    · rw [if_neg h] at hl
      simp only [GatewayCall.sentHistory, Option.some.injEq] at hl
      subst hl
      have := (List.mem_filter.mp ((List.mem_filter.mp hm).1)).2
      simpa using this
  · intro l hl m hm
    simp only [handleCodeQueryGatewayCall, GatewayCall.sentHistory,
      Option.some.injEq] at hl
    subst hl
    have := (List.mem_filter.mp hm).2
    simpa using this
  · intro l hl m hm
    simp only [handleGenerateScriptGatewayCall, GatewayCall.sentHistory,
      Option.some.injEq] at hl
    subst hl
    have := (List.mem_filter.mp hm).2
    simpa using this

/-! ## Stream reconciliation lemmas -/

/-- One fragment applied to a store whose target conversation has the
placeholder as its last message: the fragment is appended to the placeholder's
content and nothing else moves. -/
theorem applyStreamChunk_middle (convId messageId chunk : String)
    (cs1 cs2 : List Conversation) (c : Conversation) (ms : List Message) (p : Message)
    (hothers : ∀ x ∈ cs1 ++ cs2, x.id ≠ convId) (hcid : c.id = convId)
    (hmsgs : c.messages = ms ++ [p]) (hpid : p.id = messageId) :
    applyStreamChunk convId messageId chunk (cs1 ++ c :: cs2)
      = some (cs1 ++ { c with messages :=
          ms ++ [{ p with content := p.content ++ chunk }] } :: cs2) := by
  unfold applyStreamChunk
  refine mapOrThrow_middle _ cs1 cs2 c _
    (fun x hx => by rw [if_neg (hothers x (List.mem_append_left cs2 hx))])
    (fun x hx => by rw [if_neg (hothers x (List.mem_append_right cs1 hx))]) ?_
  rw [if_pos hcid, hmsgs]
  simp only [applyChunkToMessages, List.getLast?_concat, List.dropLast_concat,
    if_pos hpid, Option.map_some']

/-- Running a whole fragment sequence from a state whose target conversation
ends in the placeholder: the placeholder's content grows by the concatenation
of the fragments in arrival order. -/
theorem applyStreamChunks_run (convId messageId : String) :
    ∀ (chunks : List String) (cs1 cs2 : List Conversation) (c : Conversation)
      (ms : List Message) (p : Message),
      (∀ x ∈ cs1 ++ cs2, x.id ≠ convId) → c.id = convId →
      c.messages = ms ++ [p] → p.id = messageId →
      applyStreamChunks convId messageId chunks (cs1 ++ c :: cs2)
        = some (cs1 ++ { c with messages := ms ++
            [{ p with content := p.content ++ concatFragments chunks }] } :: cs2) := by
  intro chunks
  induction chunks with
  | nil =>
    intro cs1 cs2 c ms p hothers hcid hmsgs hpid
    show some (cs1 ++ c :: cs2) = _
    rw [concatFragments, String.append_empty]
    rw [show ({ p with content := p.content } : Message) = p from rfl, ← hmsgs]
  | cons f fs ih =>
    intro cs1 cs2 c ms p hothers hcid hmsgs hpid
    rw [applyStreamChunks,
      applyStreamChunk_middle convId messageId f cs1 cs2 c ms p hothers hcid hmsgs hpid]
    show applyStreamChunks convId messageId fs
        (cs1 ++ { c with messages :=
          ms ++ [{ p with content := p.content ++ f }] } :: cs2) = _
    rw [ih cs1 cs2 { c with messages := ms ++ [{ p with content := p.content ++ f }] }
      ms { p with content := p.content ++ f } hothers hcid rfl hpid]
    show _ = some (cs1 ++ { c with messages := ms ++
      [{ p with content := p.content ++ (f ++ concatFragments fs) }] } :: cs2)
    rw [← String.append_assoc]

/-! ## Demonstration store for the witnesses -/

def userMsg1 : Message := { id := "u1", role := .user, content := "Hi", timestamp := 1 }

def modelMsg1 : Message := { id := "m1", role := .model, content := "", timestamp := 2 }

def conv1 : Conversation :=
  { id := "c1", title := "New Chat", messages := [userMsg1, modelMsg1] }

/-! ## Claim C1 -/

/-- Claim C1: in every streamed flow whose placeholder (content initially
empty) is the last message of the target conversation, applying the fragment
sequence in arrival order and completing without failure leaves the
placeholder's content equal to the concatenation of the fragments: nothing
missing, nothing doubled, and no other message or conversation touched. -/
theorem stream_fragments_concat (convId messageId : String) (chunks : List String)
    (cs1 cs2 : List Conversation) (c : Conversation) (ms : List Message) (p : Message)
    (hothers : ∀ x ∈ cs1 ++ cs2, x.id ≠ convId) (hcid : c.id = convId)
    (hmsgs : c.messages = ms ++ [p]) (hpid : p.id = messageId)
    (hempty : p.content = "") :
    applyStreamChunks convId messageId chunks (cs1 ++ c :: cs2)
      = some (cs1 ++ { c with messages := ms ++
          [{ p with content := concatFragments chunks }] } :: cs2) := by
  have h := applyStreamChunks_run convId messageId chunks cs1 cs2 c ms p
    hothers hcid hmsgs hpid
  rw [hempty, String.empty_append] at h
  exact h

/-- Claim C1 witness: the fragments "Hel" and "lo" leave the placeholder's
content equal to "Hello". -/
theorem stream_fragments_concat_witness :
    applyStreamChunks "c1" "m1" ["Hel", "lo"] [conv1]
      = some [{ conv1 with messages :=
          [userMsg1] ++ [{ modelMsg1 with content := "Hello" }] }] :=
  stream_fragments_concat "c1" "m1" ["Hel", "lo"] [] [] conv1 [userMsg1] modelMsg1
    (fun x hx => absurd hx (List.not_mem_nil x)) rfl rfl rfl rfl

/-! ## Claim C3 -/

/-- Claim C3: if the gateway fails after any number of fragments have already
been applied, the catch branch runs `updateLastMessage` with the error text
and `isError: true`; the placeholder then carries exactly the error text (the
partial concatenation is overwritten) and the error flag. -/
theorem stream_failure_replaces_content (convId messageId errText : String)
    (chunks : List String) (u : MessageUpdate)
    (cs1 cs2 : List Conversation) (c : Conversation) (ms : List Message) (p : Message)
    (hothers : ∀ x ∈ cs1 ++ cs2, x.id ≠ convId) (hcid : c.id = convId)
    (hmsgs : c.messages = ms ++ [p]) (hpid : p.id = messageId)
    (hfresh : ∀ m ∈ ms, m.id ≠ messageId)
    (huc : u.content = some errText) (hue : u.isError = some true) :
    ∃ streamed final,
      applyStreamChunks convId messageId chunks (cs1 ++ c :: cs2) = some streamed
      ∧ updateLastMessage convId messageId u streamed
          = cs1 ++ { c with messages := ms ++ [final] } :: cs2
      ∧ final.content = errText ∧ final.isError = some true := by
  have hrun := applyStreamChunks_run convId messageId chunks cs1 cs2 c ms p
    hothers hcid hmsgs hpid
  refine ⟨_, Message.applyUpdate
    { p with content := p.content ++ concatFragments chunks } u, hrun, ?_, ?_, ?_⟩
  · rw [updateLastMessage_middle convId messageId u cs1 cs2
      { c with messages := ms ++ [{ p with content := p.content ++ concatFragments chunks }] }
      hothers hcid]
    show cs1 ++ { c with messages := (ms ++
      [{ p with content := p.content ++ concatFragments chunks }]).map _ } :: cs2 = _
    rw [List.map_append, map_eq_self_of_skip _ ms (fun m hm => if_neg (hfresh m hm)),
      List.map_cons, List.map_nil,
      if_pos (show Message.id { p with content := p.content ++ concatFragments chunks }
        = messageId from hpid)]
  · show (match u.content with
      | some x => x
      | none => Message.content { p with content := p.content ++ concatFragments chunks })
        = errText
    rw [huc]
  · show (match u.isError with
      | some b => some b
      | none => Message.isError { p with content := p.content ++ concatFragments chunks })
        = some true
    rw [hue]

/-- Claim C3 witness: a failure arriving after the fragment "par" leaves the
placeholder with the error text "boom" and the error flag, not the partial
content. -/
theorem stream_failure_replaces_content_witness :
    ∃ streamed final,
      applyStreamChunks "c1" "m1" ["par"] [conv1] = some streamed
      ∧ updateLastMessage "c1" "m1" { content := some "boom", isError := some true } streamed
          = [{ conv1 with messages := [userMsg1] ++ [final] }]
      ∧ final.content = "boom" ∧ final.isError = some true :=
  stream_failure_replaces_content "c1" "m1" "boom" ["par"]
    { content := some "boom", isError := some true } [] [] conv1 [userMsg1] modelMsg1
    (fun x hx => absurd hx (List.not_mem_nil x)) rfl rfl rfl (by decide) rfl rfl

/-! ## Claim C9 -/

/-- Claim C9: a streamed fragment is applied only while the placeholder is
still the last message of its conversation.  If any messages (with other ids)
sit after the placeholder, the arriving fragment is silently dropped: the
step does not throw and the whole store is returned unchanged. -/
theorem chunk_dropped_when_not_last (convId messageId chunk : String)
    (cs1 cs2 : List Conversation) (c : Conversation)
    (pre post : List Message) (p : Message)
    (hothers : ∀ x ∈ cs1 ++ cs2, x.id ≠ convId) (hcid : c.id = convId)
    (hmsgs : c.messages = pre ++ p :: post) (hpid : p.id = messageId)
    (hpost : post ≠ []) (hafter : ∀ m ∈ post, m.id ≠ messageId) :
    applyStreamChunk convId messageId chunk (cs1 ++ c :: cs2)
      = some (cs1 ++ c :: cs2) := by
  unfold applyStreamChunk
  refine mapOrThrow_middle _ cs1 cs2 c c
    (fun x hx => by rw [if_neg (hothers x (List.mem_append_left cs2 hx))])
    (fun x hx => by rw [if_neg (hothers x (List.mem_append_right cs1 hx))]) ?_
  rw [if_pos hcid]
  have hlast : c.messages.getLast? = some (post.getLast hpost) := by
    rw [hmsgs, show (pre ++ p :: post : List Message) = (pre ++ [p]) ++ post from by simp,
      List.getLast?_append, List.getLast?_eq_getLast post hpost]
    rfl
  rw [applyChunkToMessages, hlast]
  show (if (post.getLast hpost).id = messageId then _ else some c.messages).map _ = _
  rw [if_neg (hafter (post.getLast hpost) (List.getLast_mem hpost))]
  rfl

def userMsg2 : Message := { id := "u2", role := .user, content := "Again", timestamp := 3 }

def conv2 : Conversation :=
  { id := "c1", title := "New Chat", messages := [userMsg1, modelMsg1, userMsg2] }

/-- Claim C9 witness: a fragment addressed to the placeholder "m1" is dropped
because the user message "u2" was appended after it. -/
theorem chunk_dropped_when_not_last_witness :
    applyStreamChunk "c1" "m1" "frag" [conv2] = some [conv2] :=
  chunk_dropped_when_not_last "c1" "m1" "frag" [] [] conv2 [userMsg1] [userMsg2] modelMsg1
    (fun x hx => absurd hx (List.not_mem_nil x)) rfl rfl rfl
    (List.cons_ne_nil userMsg2 []) (by decide)

/-! ## Claim C2 -/

/-- Frame property of the fragment step on one message list: only the message
carrying the placeholder id can change. -/
theorem applyChunkToMessages_frame (messageId chunk : String)
    (ms ms2 : List Message) (h : applyChunkToMessages messageId chunk ms = some ms2) :
    ms2.length = ms.length
    ∧ ∀ (j : Nat) (hj : j < ms.length) (hj2 : j < ms2.length),
        ms[j].id ≠ messageId → ms2[j] = ms[j] := by
  cases hlast : ms.getLast? with
  | none =>
    rw [show applyChunkToMessages messageId chunk ms = none from by
      rw [applyChunkToMessages, hlast]] at h
    exact absurd h (by simp)
  | some lastMsg =>
    rw [show applyChunkToMessages messageId chunk ms
        = if lastMsg.id = messageId then
            some (ms.dropLast ++ [{ lastMsg with content := lastMsg.content ++ chunk }])
          else some ms from by
      rw [applyChunkToMessages, hlast]] at h
    by_cases hid : lastMsg.id = messageId
    · rw [if_pos hid] at h
      simp only [Option.some.injEq] at h
      subst h
      have hne : ms ≠ [] := by
        intro hnil; rw [hnil] at hlast; exact absurd hlast (by simp)
      have hpos : 0 < ms.length := List.length_pos.mpr hne
      have hlen : ms.dropLast.length = ms.length - 1 := List.length_dropLast ms
      refine ⟨by simp only [List.length_append, List.length_singleton, hlen]; omega, ?_⟩
      intro j hj hj2 hjid
      by_cases hjlt : j < ms.dropLast.length
      · rw [List.getElem_append_left hjlt, List.getElem_dropLast]
      · exfalso
        have hj1 : j = ms.length - 1 := by omega
        have h9 : ms[ms.length - 1]? = some lastMsg := by
          rw [← List.getLast?_eq_getElem?, hlast]
        rw [← hj1] at h9
        have h10 : ms[j]? = some ms[j] := List.getElem?_eq_getElem hj
        rw [h10] at h9
        simp only [Option.some.injEq] at h9
        exact hjid (h9 ▸ hid)
    · rw [if_neg hid] at h
      simp only [Option.some.injEq] at h
      subst h
      exact ⟨rfl, fun _ _ _ _ => rfl⟩

/-- Frame property of the fragment step on one conversation. -/
theorem applyStreamChunk_conv_frame (convId messageId chunk : String)
    (c c2 : Conversation)
    (h : (if c.id = convId then
        (applyChunkToMessages messageId chunk c.messages).map
          (fun ms => { c with messages := ms })
      else some c) = some c2) :
    (c.id ≠ convId → c2 = c)
    ∧ c2.id = c.id ∧ c2.title = c.title ∧ c2.isPinned = c.isPinned
    ∧ c2.messages.length = c.messages.length
    ∧ ∀ (j : Nat) (hj : j < c.messages.length) (hj2 : j < c2.messages.length),
        c.messages[j].id ≠ messageId → c2.messages[j] = c.messages[j] := by
  by_cases hid : c.id = convId
  · rw [if_pos hid] at h
    obtain ⟨ms2, hms2, hc2⟩ := Option.map_eq_some'.mp h
    subst hc2
    obtain ⟨hlen, hpt⟩ := applyChunkToMessages_frame messageId chunk c.messages ms2 hms2
    exact ⟨fun hne => absurd hid hne, rfl, rfl, rfl, hlen, hpt⟩
  · rw [if_neg hid] at h
    simp only [Option.some.injEq] at h
    subst h
    exact ⟨fun _ => rfl, rfl, rfl, rfl, rfl, fun _ _ _ _ => rfl⟩

/-- Claim C2: a fragment-apply step and a terminal or error update are both
addressed by the captured (conversation id, message id) pair: conversations
with another id are returned unchanged, and inside the addressed conversation
every message with another id (and the conversation's own id, title and pin
state) is returned unchanged.  Interleaved steps of concurrently in-flight
flows therefore never write into each other's placeholder. -/
theorem generation_updates_frame (convId messageId chunk : String)
    (u : MessageUpdate) (cs : List Conversation) :
    ((updateLastMessage convId messageId u cs).length = cs.length
     ∧ ∀ (i : Nat) (hi : i < cs.length)
         (hi2 : i < (updateLastMessage convId messageId u cs).length),
         (cs[i].id ≠ convId → (updateLastMessage convId messageId u cs)[i] = cs[i])
         ∧ (updateLastMessage convId messageId u cs)[i].id = cs[i].id
         ∧ (updateLastMessage convId messageId u cs)[i].title = cs[i].title
         ∧ (updateLastMessage convId messageId u cs)[i].isPinned = cs[i].isPinned
         ∧ (updateLastMessage convId messageId u cs)[i].messages.length
             = cs[i].messages.length
         ∧ ∀ (j : Nat) (hj : j < cs[i].messages.length)
             (hj2 : j < (updateLastMessage convId messageId u cs)[i].messages.length),
             cs[i].messages[j].id ≠ messageId →
             (updateLastMessage convId messageId u cs)[i].messages[j]
               = cs[i].messages[j])
    ∧ (∀ cs2, applyStreamChunk convId messageId chunk cs = some cs2 →
        cs2.length = cs.length
        ∧ ∀ (i : Nat) (hi : i < cs.length) (hi2 : i < cs2.length),
            (cs[i].id ≠ convId → cs2[i] = cs[i])
            ∧ cs2[i].id = cs[i].id ∧ cs2[i].title = cs[i].title
            ∧ cs2[i].isPinned = cs[i].isPinned
            ∧ cs2[i].messages.length = cs[i].messages.length
            ∧ ∀ (j : Nat) (hj : j < cs[i].messages.length)
                (hj2 : j < cs2[i].messages.length),
                cs[i].messages[j].id ≠ messageId →
                cs2[i].messages[j] = cs[i].messages[j]) := by
  constructor
  · refine ⟨by simp [updateLastMessage], ?_⟩
    intro i hi hi2
    have hmap : (updateLastMessage convId messageId u cs)[i]
        = if cs[i].id = convId then
            { cs[i] with messages := cs[i].messages.map fun m =>
                if m.id = messageId then m.applyUpdate u else m }
          else cs[i] := List.getElem_map _
    by_cases hid : cs[i].id = convId
    · rw [hmap, if_pos hid]
      refine ⟨fun hne => absurd hid hne, rfl, rfl, rfl, by simp, ?_⟩
      intro j hj hj2 hjid
      exact (List.getElem_map _).trans (if_neg hjid)
    · rw [hmap, if_neg hid]
      exact ⟨fun _ => rfl, rfl, rfl, rfl, rfl, fun _ _ _ _ => rfl⟩
  · intro cs2 h
    obtain ⟨hlen, hpt⟩ := mapOrThrow_some _ cs cs2 h
    refine ⟨hlen, ?_⟩
    intro i hi hi2
    exact applyStreamChunk_conv_frame convId messageId chunk cs[i] cs2[i] (hpt i hi hi2)

/-- Claim C2 witness. -/
theorem generation_updates_frame_witness :
    (updateLastMessage "c1" "m1" { content := some "x" } [conv1]).length = 1 :=
  (generation_updates_frame "c1" "m1" "frag" { content := some "x" } [conv1]).1.1

/-! ## Claim C6: the image-generation flow -/

/-- `handleGenerateImage` (App.tsx lines 372-430) as one pure transition on
the app state.  The externally produced values are parameters: the two fresh
message ids and the fresh conversation id from `generateId()`, the two
`Date.now()` timestamps, and the outcome of the `generateImage` gateway call
(`Except.ok url` for a resolved call, `Except.error msg` for a rejected one
whose derived human-readable text is `msg`, App.tsx lines 423-426). -/
def handleGenerateImage (userMsgId modelMsgId newConvId : String) (ts1 ts2 : Nat)
    (prompt : String) (gatewayResult : Except String String) (s : AppState) : AppState :=
  let userMessage : Message :=
    { id := userMsgId, role := .user, content := prompt, timestamp := ts1 }
  let modelMessage : Message :=
    { id := modelMsgId, role := .model, content := "Generating image...", timestamp := ts2 }
  let finish : String → List Conversation → Option String → AppState :=
    fun convId cs active =>
      let cs2 := appendMessageToConv convId modelMessage cs
      let cs3 :=
        match gatewayResult with
        | Except.ok imageUrl =>
          updateLastMessage convId modelMsgId
            { content := some "", imageUrl := some imageUrl } cs2
        | Except.error errorMessage =>
          updateLastMessage convId modelMsgId
            { content := some errorMessage, isError := some true } cs2
      { conversations := cs3, activeConversationId := active }
  match s.conversations.find? (fun c => decide (some c.id = s.activeConversationId)) with
  | some conv =>
    finish conv.id (appendMessageToConv conv.id userMessage s.conversations)
      s.activeConversationId
  | none =>
    finish newConvId
      ({ id := newConvId, title := "Image: " ++ prompt.take 20 ++ "...",
         messages := [userMessage] } :: s.conversations)
      (some newConvId)

theorem find?_middle (p : Conversation → Bool) (cs1 cs2 : List Conversation)
    (c : Conversation) (h1 : ∀ x ∈ cs1, p x = false) (hc : p c = true) :
    List.find? p (cs1 ++ c :: cs2) = some c := by
  induction cs1 with
  | nil => simp only [List.nil_append, List.find?, hc]
  | cons a l ih =>
    rw [List.cons_append,
      show List.find? p (a :: (l ++ c :: cs2)) = List.find? p (l ++ c :: cs2) from by
        rw [List.find?, h1 a (List.mem_cons_self a l)]]
    exact ih fun x hx => h1 x (List.mem_cons_of_mem a hx)

theorem find?_none_all (p : Conversation → Bool) (l : List Conversation)
    (h : ∀ x ∈ l, p x = false) : List.find? p l = none := by
  induction l with
  | nil => rfl
  | cons a l ih =>
    rw [show List.find? p (a :: l) = List.find? p l from by
      rw [List.find?, h a (List.mem_cons_self a l)]]
    exact ih fun x hx => h x (List.mem_cons_of_mem a hx)

/-- Appending the placeholder to a conversation and then updating by the
placeholder's id rewrites exactly the appended placeholder. -/
theorem append_then_update (convId modelMsgId : String) (modelMessage : Message)
    (u : MessageUpdate) (cs1 cs2 : List Conversation) (d : Conversation)
    (hothers : ∀ x ∈ cs1 ++ cs2, x.id ≠ convId) (hd : d.id = convId)
    (hmid : modelMessage.id = modelMsgId)
    (hfresh : ∀ m ∈ d.messages, m.id ≠ modelMsgId) :
    updateLastMessage convId modelMsgId u
        (appendMessageToConv convId modelMessage (cs1 ++ d :: cs2))
      = cs1 ++ { d with messages := d.messages ++ [modelMessage.applyUpdate u] } :: cs2 := by
  rw [appendMessageToConv_middle convId modelMessage cs1 cs2 d hothers hd,
    updateLastMessage_middle convId modelMsgId u cs1 cs2
      { d with messages := d.messages ++ [modelMessage] } hothers hd]
  show cs1 ++ { d with messages := (d.messages ++ [modelMessage]).map _ } :: cs2 = _
  rw [List.map_append, map_eq_self_of_skip _ d.messages (fun m hm => if_neg (hfresh m hm)),
    List.map_cons, List.map_nil, if_pos hmid]

/-- Claim C6: an image-mode submission appends the user message carrying the
prompt, then the "Generating image..." placeholder; a successful gateway call
replaces the placeholder's content by the empty string and sets its imageUrl,
and a failed one marks the placeholder as an error carrying the derived error
text.  The four conjuncts cover success and failure on an active conversation
and success and failure when no conversation is active (a fresh conversation
is then created and activated). -/
theorem handleGenerateImage_spec (userMsgId modelMsgId newConvId prompt url errText : String)
    (ts1 ts2 : Nat) (cs1 cs2 : List Conversation) (c : Conversation)
    (hothers : ∀ x ∈ cs1 ++ cs2, x.id ≠ c.id)
    (hfresh : ∀ m ∈ c.messages, m.id ≠ modelMsgId) (hid : userMsgId ≠ modelMsgId)
    (hnew : ∀ x ∈ cs1 ++ c :: cs2, x.id ≠ newConvId) :
    (handleGenerateImage userMsgId modelMsgId newConvId ts1 ts2 prompt (Except.ok url)
        ⟨cs1 ++ c :: cs2, some c.id⟩
      = ⟨cs1 ++ { c with messages := c.messages ++
            [{ id := userMsgId, role := .user, content := prompt, timestamp := ts1 },
             { id := modelMsgId, role := .model, content := "", timestamp := ts2,
               imageUrl := some url }] } :: cs2,
         some c.id⟩)
    ∧ (handleGenerateImage userMsgId modelMsgId newConvId ts1 ts2 prompt
        (Except.error errText) ⟨cs1 ++ c :: cs2, some c.id⟩
      = ⟨cs1 ++ { c with messages := c.messages ++
            [{ id := userMsgId, role := .user, content := prompt, timestamp := ts1 },
             { id := modelMsgId, role := .model, content := errText, timestamp := ts2,
               isError := some true }] } :: cs2,
         some c.id⟩)
    ∧ (handleGenerateImage userMsgId modelMsgId newConvId ts1 ts2 prompt (Except.ok url)
        ⟨cs1 ++ c :: cs2, none⟩
      = ⟨{ id := newConvId, title := "Image: " ++ prompt.take 20 ++ "...",
           messages :=
            [{ id := userMsgId, role := .user, content := prompt, timestamp := ts1 },
             { id := modelMsgId, role := .model, content := "", timestamp := ts2,
               imageUrl := some url }] } :: (cs1 ++ c :: cs2),
         some newConvId⟩)
    ∧ (handleGenerateImage userMsgId modelMsgId newConvId ts1 ts2 prompt
        (Except.error errText) ⟨cs1 ++ c :: cs2, none⟩
      = ⟨{ id := newConvId, title := "Image: " ++ prompt.take 20 ++ "...",
           messages :=
            [{ id := userMsgId, role := .user, content := prompt, timestamp := ts1 },
             { id := modelMsgId, role := .model, content := errText, timestamp := ts2,
               isError := some true }] } :: (cs1 ++ c :: cs2),
         some newConvId⟩) := by
  have hfindSome : List.find? (fun x => decide (some x.id = some c.id)) (cs1 ++ c :: cs2)
      = some c :=
    find?_middle _ cs1 cs2 c
      (fun x hx => by
        simp only [decide_eq_false_iff_not, Option.some.injEq]
        exact hothers x (List.mem_append_left cs2 hx))
      (by simp)
  have hfindNone : List.find? (fun x => decide (some x.id = (none : Option String)))
      (cs1 ++ c :: cs2) = none :=
    find?_none_all _ _ (fun x _ => by simp)
  have huser : ∀ m ∈ c.messages ++
      [({ id := userMsgId, role := .user, content := prompt, timestamp := ts1 } : Message)],
      m.id ≠ modelMsgId := by
    intro m hm
    rcases List.mem_append.mp hm with h | h
    · exact hfresh m h
    · rw [List.mem_singleton.mp h]; exact hid
  have hnewmsgs : ∀ m ∈
      [({ id := userMsgId, role := .user, content := prompt, timestamp := ts1 } : Message)],
      m.id ≠ modelMsgId := by
    intro m hm
    rw [List.mem_singleton.mp hm]; exact hid
  refine ⟨?_, ?_, ?_, ?_⟩
  · simp only [handleGenerateImage, hfindSome]
    rw [appendMessageToConv_middle c.id _ cs1 cs2 c hothers rfl,
      append_then_update c.id modelMsgId _ _ cs1 cs2
        { c with messages := c.messages ++
            [{ id := userMsgId, role := .user, content := prompt, timestamp := ts1 }] }
        hothers rfl rfl huser,
      List.append_assoc]
    rfl
  · simp only [handleGenerateImage, hfindSome]
    rw [appendMessageToConv_middle c.id _ cs1 cs2 c hothers rfl,
      append_then_update c.id modelMsgId _ _ cs1 cs2
        { c with messages := c.messages ++
            [{ id := userMsgId, role := .user, content := prompt, timestamp := ts1 }] }
        hothers rfl rfl huser,
      List.append_assoc]
    rfl
  · simp only [handleGenerateImage, hfindNone]
    have h := append_then_update newConvId modelMsgId
      { id := modelMsgId, role := .model, content := "Generating image...", timestamp := ts2 }
      { content := some "", imageUrl := some url } [] (cs1 ++ c :: cs2)
      { id := newConvId, title := "Image: " ++ prompt.take 20 ++ "...",
        messages :=
          [{ id := userMsgId, role := .user, content := prompt, timestamp := ts1 }] }
      hnew rfl rfl hnewmsgs
    simp only [List.nil_append] at h
    rw [h]
    rfl
  · simp only [handleGenerateImage, hfindNone]
    have h := append_then_update newConvId modelMsgId
      { id := modelMsgId, role := .model, content := "Generating image...", timestamp := ts2 }
      { content := some errText, isError := some true } [] (cs1 ++ c :: cs2)
      { id := newConvId, title := "Image: " ++ prompt.take 20 ++ "...",
        messages :=
          [{ id := userMsgId, role := .user, content := prompt, timestamp := ts1 }] }
      hnew rfl rfl hnewmsgs
    simp only [List.nil_append] at h
    rw [h]
    rfl

/-- Claim C6 witness: a successful image generation on an active one-exchange
conversation. -/
theorem handleGenerateImage_spec_witness :
    handleGenerateImage "u9" "m9" "n9" 5 6 "a red fox" (Except.ok "data:image/png;base64,AAA")
        ⟨[conv1], some "c1"⟩
      = ⟨[{ conv1 with messages := conv1.messages ++
            [{ id := "u9", role := .user, content := "a red fox", timestamp := 5 },
             { id := "m9", role := .model, content := "", timestamp := 6,
               imageUrl := some "data:image/png;base64,AAA" }] }],
         some "c1"⟩ :=
  (handleGenerateImage_spec "u9" "m9" "n9" "a red fox" "data:image/png;base64,AAA" "boom"
      5 6 [] [] conv1
      (fun x hx => absurd hx (List.not_mem_nil x)) (by decide) (by decide)
      (by decide)).1

/-- Claim C7 witness: the mind-map call site carries no history. -/
theorem gateway_history_spec_witness :
    (handleGenerateMindMapGatewayCall "Solar System").sentHistory = none :=
  (gateway_history_spec [userMsg1] userMsg1 "Hello" "q" "s" "Solar System" "fox" "cat"
      true).2.2.2.1
